import Mathlib

/-!
Verification of the RecSignal alert evaluation engine.

This file is a shallow embedding of the core decision logic of the
repository:

- `services/alert_engine.py` — threshold resolution (`_get_threshold`),
  severity classification (`_classify`), duplicate suppression
  (`_has_open_alert`), auto-resolution (`_auto_resolve`) and the
  per-reading evaluation algorithm (`evaluate`);
- `routes/alerts.py` — the operator transitions `acknowledge_alert`
  and `resolve_alert`.

Modelling conventions:

- Numeric metric values and thresholds are rationals (the Python code
  uses floats; all comparisons in the engine are exact order
  comparisons, which coincide on the decimal-exact values the system
  exchanges).
- The three logical tables are explicit: the `config` table is a
  `List Config`, the `alerts` table is the `alerts` field of `DB`
  together with an auto-increment counter `nextId` (SQLite
  `INTEGER PRIMARY KEY AUTOINCREMENT`).  Row timestamps are abstract
  `Nat` instants supplied by the caller.
- The default backend is the SQLite adapter (`DB_TYPE=sqlite` in
  `database.py`), where the empty string is a genuine empty string and
  SQL `NULL` is modelled by `Option.none`.  The SQL predicate
  `(label = :lbl OR (:lbl IS NULL AND label IS NULL))` used by both
  `_has_open_alert` and `_auto_resolve` is therefore exactly equality
  of `Option String`.
- The SQL `ORDER BY specificity FETCH FIRST 1 ROWS ONLY` in
  `_get_threshold` leaves the choice among equal-score rows to the
  database; the model resolves that tie deterministically in favour of
  the earliest row of the table, which refines the implementation.
- The per-request threshold cache of `AlertEngine` is omitted: the
  `config` table is never written during a request, so the cache is
  semantically transparent.
-/

namespace RecSignal

/-- Severity levels returned by `AlertEngine._classify`. -/
inductive Severity where
  | OK
  | WARNING
  | CRITICAL
deriving DecidableEq

/-- Alert lifecycle states (`AlertStatus` in `models.py`). -/
inductive AlertStatus where
  | OPEN
  | ACKNOWLEDGED
  | RESOLVED
deriving DecidableEq

/-- A row of the `config` table: a threshold scoped to a metric type,
environment, and optionally a hostname and a path label (empty string
means the scope applies to all hosts resp. all labels). -/
structure Config where
  metric_type : String
  environment : String
  hostname : String
  path_label : String
  warning_threshold : ℚ
  critical_threshold : ℚ
deriving DecidableEq

/-- The `Threshold` dataclass of `alert_engine.py`: the pair of levels
returned by `_get_threshold`. -/
structure Threshold where
  warning : ℚ
  critical : ℚ
deriving DecidableEq

/-- A row of the `alerts` table. -/
structure Alert where
  id : Nat
  server_id : Nat
  metric : String
  severity : Severity
  label : Option String
  value : ℚ
  message : String
  status : AlertStatus
  acknowledged_by : Option String
  created_at : Nat
  resolved_at : Option Nat
deriving DecidableEq

/-- The mutable alert store: the `alerts` table rows in insertion
order, plus the auto-increment id counter. -/
structure DB where
  alerts : List Alert
  nextId : Nat
deriving DecidableEq

/-- The empty alert store. -/
def initDB : DB := ⟨[], 0⟩

/-- `AlertEngine._classify`: `value >= critical` is CRITICAL, else
`value >= warning` is WARNING, else OK. -/
def classify (value : ℚ) (t : Threshold) : Severity :=
  if value ≥ t.critical then Severity.CRITICAL
  else if value ≥ t.warning then Severity.WARNING
  else Severity.OK

/-- The `WHERE` filter of the `_get_threshold` query: row matches the
metric type and environment, and its hostname (resp. path label) is
the request hostname (resp. label) or the empty wildcard. -/
def configMatches (mt env hn lbl : String) (c : Config) : Bool :=
  decide (c.metric_type = mt ∧ c.environment = env ∧
    (c.hostname = hn ∨ c.hostname = "") ∧
    (c.path_label = lbl ∨ c.path_label = ""))

/-- The `ORDER BY` specificity score of `_get_threshold`:
`CASE WHEN hostname = :hn AND hostname <> '' THEN 0 ELSE 1 END`
plus the analogous term for the path label. -/
def specScore (hn lbl : String) (c : Config) : Nat :=
  (if c.hostname = hn ∧ c.hostname ≠ "" then 0 else 1) +
  (if c.path_label = lbl ∧ c.path_label ≠ "" then 0 else 1)

/-- `FETCH FIRST 1 ROWS ONLY` after ordering by ascending specificity
score: the earliest row of minimal score. -/
def selectMin (hn lbl : String) : List Config → Option Config
  | [] => none
  | c :: cs =>
    match selectMin hn lbl cs with
    | none => some c
    | some b => if specScore hn lbl c ≤ specScore hn lbl b then some c else some b

/-- `AlertEngine._get_threshold`: resolve the most specific configured
threshold for a reading.  A missing label is queried as the empty
string (`lbl = label or ''` in the source). -/
def getThreshold (cfg : List Config) (mt env hn : String)
    (label : Option String) : Option Threshold :=
  match selectMin hn (label.getD "")
      (cfg.filter (configMatches mt env hn (label.getD ""))) with
  | some c => some ⟨c.warning_threshold, c.critical_threshold⟩
  | none => none

/-- The row filter shared by `_has_open_alert` and `_auto_resolve`:
same server, same metric, same label (SQL-null-safe equality, i.e.
`Option` equality), and status OPEN or ACKNOWLEDGED. -/
def openPred (sid : Nat) (mt : String) (lbl : Option String) (a : Alert) : Bool :=
  decide (a.server_id = sid ∧ a.metric = mt ∧ a.label = lbl ∧
    (a.status = AlertStatus.OPEN ∨ a.status = AlertStatus.ACKNOWLEDGED))

/-- `AlertEngine._has_open_alert`: does an OPEN or ACKNOWLEDGED alert
exist for the exact (server, metric, label) tuple? -/
def hasOpenAlert (sid : Nat) (mt : String) (lbl : Option String) (db : DB) : Bool :=
  db.alerts.any (openPred sid mt lbl)

/-- `AlertEngine._auto_resolve`: set every OPEN/ACKNOWLEDGED alert of
the tuple to RESOLVED with the resolution timestamp. -/
def autoResolve (sid : Nat) (mt : String) (lbl : Option String) (now : Nat)
    (db : DB) : DB :=
  { db with alerts := db.alerts.map (fun a =>
      if openPred sid mt lbl a then
        { a with status := AlertStatus.RESOLVED, resolved_at := some now }
      else a) }

/-- The word printed for a severity inside an alert message. -/
def sevStr : Severity → String
  | Severity.OK => "OK"
  | Severity.WARNING => "WARNING"
  | Severity.CRITICAL => "CRITICAL"

/-- The Python format `{value:.1f}` on a decimal-exact value: one
digit after the decimal point, rounding half to even as CPython does.
Computed on the numerator and denominator directly: the integer
rendered is `q * 10` rounded half to even. -/
def fmt1 (q : ℚ) : String :=
  let n10 : ℤ := q.num * 10
  let d : ℤ := (q.den : ℤ)
  let f : ℤ := Int.fdiv n10 d
  let r : ℤ := n10 - f * d
  let n : ℤ :=
    if 2 * r < d then f
    else if 2 * r > d then f + 1
    else if f % 2 = 0 then f else f + 1
  let sign := if n < 0 then "-" else ""
  let m := n.natAbs
  sign ++ toString (m / 10) ++ "." ++ toString (m % 10)

/-- Smallest number of decimal digits needed after the point to write
the fraction exactly, when at most 18 suffice. -/
def decDigits (d : Nat) : Option Nat :=
  (List.range 19).find? (fun k => 10 ^ k % d == 0)

/-- Left-pad a numeral with zeros to `k` digits. -/
def padZeros (s : String) (k : Nat) : String :=
  String.mk (List.replicate (k - s.length) '0') ++ s

/-- Python `str()` of a float holding a decimal-exact value: all
decimal digits, at least one after the point (`90 ↦ "90.0"`,
`75.25 ↦ "75.25"`). -/
def pyFloatRepr (q : ℚ) : String :=
  match decDigits q.den with
  | none => toString q
  | some k0 =>
    let k := max k0 1
    let scaled : ℤ := q.num * ((10 ^ k / q.den : ℕ) : ℤ)
    let sign := if scaled < 0 then "-" else ""
    let m := scaled.natAbs
    sign ++ toString (m / 10 ^ k) ++ "." ++ padZeros (toString (m % 10 ^ k)) k

/-- The alert message built by `AlertEngine.evaluate`: the value with
one decimal and a percent sign, the bracketed label (or the word
server when the label is falsy), and the breached threshold level. -/
def alertMessage (mt : String) (value : ℚ) (label : Option String)
    (sev : Severity) (t : Threshold) : String :=
  mt ++ " is " ++ fmt1 value ++ "% on " ++
  (match label with
   | some l => if l = "" then "server" else "[" ++ l ++ "]"
   | none => "server") ++
  " (" ++ sevStr sev ++ " threshold: " ++
  pyFloatRepr (if sev = Severity.CRITICAL then t.critical else t.warning) ++ ")"

/-- `AlertEngine.evaluate`: per-reading algorithm.  Returns whether a
new alert was created, together with the updated store.  `now` is the
database clock used for default `created_at` and for `resolved_at`. -/
def evaluate (cfg : List Config) (sid : Nat) (env hn mt : String) (value : ℚ)
    (label : Option String) (now : Nat) (db : DB) : Bool × DB :=
  match getThreshold cfg mt env hn label with
  | none => (false, db)
  | some t =>
    let sev := classify value t
    if sev = Severity.OK then (false, autoResolve sid mt label now db)
    else if hasOpenAlert sid mt label db then (false, db)
    else
      (true,
       { alerts := db.alerts ++
           [{ id := db.nextId, server_id := sid, metric := mt, severity := sev,
              label := label, value := value,
              message := alertMessage mt value label sev t,
              status := AlertStatus.OPEN, acknowledged_by := none,
              created_at := now, resolved_at := none }],
         nextId := db.nextId + 1 })

/-- Client-visible errors of the alert routes (`HTTPException` 404 and
400 in `routes/alerts.py`). -/
inductive ApiError where
  | NotFound
  | InvalidTransition
deriving DecidableEq

/-- `SELECT ... FROM alerts WHERE id = :aid` (ids are unique in the
real table; the model reads the first match). -/
def findAlert (db : DB) (aid : Nat) : Option Alert :=
  db.alerts.find? (fun a => decide (a.id = aid))

/-- `acknowledge_alert` of `routes/alerts.py`: 404 when the id is
unknown, 400 when the status is not OPEN, otherwise set status
ACKNOWLEDGED and record the acknowledger, and return the updated
row.  On error the surrounding transaction is rolled back, so the
store is returned only on success. -/
def acknowledgeAlert (db : DB) (aid : Nat) (who : String) :
    Except ApiError (Alert × DB) :=
  match findAlert db aid with
  | none => Except.error ApiError.NotFound
  | some a =>
    if a.status ≠ AlertStatus.OPEN then Except.error ApiError.InvalidTransition
    else
      Except.ok
        ({ a with status := AlertStatus.ACKNOWLEDGED, acknowledged_by := some who },
         { db with alerts := db.alerts.map (fun x =>
             if x.id = aid then
               { x with status := AlertStatus.ACKNOWLEDGED, acknowledged_by := some who }
             else x) })

/-- `resolve_alert` of `routes/alerts.py`: 404 when the id is unknown,
400 when the alert is already RESOLVED, otherwise set status RESOLVED
with the resolution timestamp and return the updated row. -/
def resolveAlert (db : DB) (aid : Nat) (now : Nat) :
    Except ApiError (Alert × DB) :=
  match findAlert db aid with
  | none => Except.error ApiError.NotFound
  | some a =>
    if a.status = AlertStatus.RESOLVED then Except.error ApiError.InvalidTransition
    else
      Except.ok
        ({ a with status := AlertStatus.RESOLVED, resolved_at := some now },
         { db with alerts := db.alerts.map (fun x =>
             if x.id = aid then
               { x with status := AlertStatus.RESOLVED, resolved_at := some now }
             else x) })

/-- The public operations on the alert store: evaluate a reading,
acknowledge, resolve.  Failed operator transitions roll back and leave
the store unchanged. -/
inductive Op where
  | eval (sid : Nat) (env hn mt : String) (value : ℚ)
      (label : Option String) (now : Nat)
  | ack (aid : Nat) (who : String)
  | res (aid : Nat) (now : Nat)

/-- Apply one public operation to the store. -/
def applyOp (cfg : List Config) (db : DB) : Op → DB
  | Op.eval sid env hn mt v lbl now => (evaluate cfg sid env hn mt v lbl now db).2
  | Op.ack aid who =>
    match acknowledgeAlert db aid who with
    | Except.ok p => p.2
    | Except.error _ => db
  | Op.res aid now =>
    match resolveAlert db aid now with
    | Except.ok p => p.2
    | Except.error _ => db

/-- Apply a sequence of public operations in order. -/
def runOps (cfg : List Config) (db : DB) (ops : List Op) : DB :=
  ops.foldl (applyOp cfg) db

/-- Number of OPEN/ACKNOWLEDGED alert rows for a tuple. -/
def openCount (sid : Nat) (mt : String) (lbl : Option String) (db : DB) : Nat :=
  db.alerts.countP (openPred sid mt lbl)

/-- The row inserted by the create branch of `evaluate`. -/
def newAlert (sid : Nat) (mt : String) (v : ℚ) (label : Option String)
    (now : Nat) (t : Threshold) (db : DB) : Alert :=
  { id := db.nextId, server_id := sid, metric := mt, severity := classify v t,
    label := label, value := v,
    message := alertMessage mt v label (classify v t) t,
    status := AlertStatus.OPEN, acknowledged_by := none,
    created_at := now, resolved_at := none }

/-! ### Branch lemmas for `evaluate` -/

theorem evaluate_no_threshold {cfg : List Config} {sid : Nat} {env hn mt : String}
    {v : ℚ} {label : Option String} (now : Nat) (db : DB)
    (h : getThreshold cfg mt env hn label = none) :
    evaluate cfg sid env hn mt v label now db = (false, db) := by
  unfold evaluate
  rw [h]

theorem evaluate_ok_branch {cfg : List Config} {sid : Nat} {env hn mt : String}
    {v : ℚ} {label : Option String} (now : Nat) (db : DB) {t : Threshold}
    (hth : getThreshold cfg mt env hn label = some t)
    (hsev : classify v t = Severity.OK) :
    evaluate cfg sid env hn mt v label now db =
      (false, autoResolve sid mt label now db) := by
  unfold evaluate
  rw [hth]
  simp [hsev]

theorem evaluate_suppressed {cfg : List Config} {sid : Nat} {env hn mt : String}
    {v : ℚ} {label : Option String} (now : Nat) {db : DB} {t : Threshold}
    (hth : getThreshold cfg mt env hn label = some t)
    (hsev : classify v t ≠ Severity.OK)
    (hopen : hasOpenAlert sid mt label db = true) :
    evaluate cfg sid env hn mt v label now db = (false, db) := by
  unfold evaluate
  rw [hth]
  simp [hsev, hopen]

theorem evaluate_creates {cfg : List Config} {sid : Nat} {env hn mt : String}
    {v : ℚ} {label : Option String} (now : Nat) {db : DB} {t : Threshold}
    (hth : getThreshold cfg mt env hn label = some t)
    (hsev : classify v t ≠ Severity.OK)
    (hopen : hasOpenAlert sid mt label db = false) :
    evaluate cfg sid env hn mt v label now db =
      (true, ⟨db.alerts ++ [newAlert sid mt v label now t db], db.nextId + 1⟩) := by
  unfold evaluate
  rw [hth]
  simp [hsev, hopen, newAlert]

/-- C2: for every value `v` and threshold pair `(w, c)` with `w < c`,
the classifier returns CRITICAL when `v ≥ c`, WARNING when
`w ≤ v < c`, and OK when `v < w`. -/
theorem classify_correct (v w c : ℚ) (h : w < c) :
    (v ≥ c → classify v ⟨w, c⟩ = Severity.CRITICAL) ∧
    (w ≤ v → v < c → classify v ⟨w, c⟩ = Severity.WARNING) ∧
    (v < w → classify v ⟨w, c⟩ = Severity.OK) := by
  refine ⟨fun h1 => ?_, fun h1 h2 => ?_, fun h1 => ?_⟩
  · unfold classify
    rw [if_pos h1]
  · unfold classify
    rw [if_neg (not_le.mpr h2), if_pos h1]
  · unfold classify
    rw [if_neg (not_le.mpr (h1.trans h)), if_neg (not_le.mpr h1)]

/-- Witness for C2: concrete classifications in all three bands of the
threshold pair (3, 5). -/
theorem classify_correct_witness :
    classify 7 ⟨3, 5⟩ = Severity.CRITICAL ∧
    classify 4 ⟨3, 5⟩ = Severity.WARNING ∧
    classify 2 ⟨3, 5⟩ = Severity.OK :=
  ⟨(classify_correct 7 3 5 (by decide)).1 (by decide),
   (classify_correct 4 3 5 (by decide)).2.1 (by decide) (by decide),
   (classify_correct 2 3 5 (by decide)).2.2 (by decide)⟩

/-- C3: `evaluate` follows exactly the specified per-reading
algorithm: no threshold is a silent no-op returning false; an OK value
auto-resolves the tuple and returns false; an existing
OPEN/ACKNOWLEDGED alert suppresses the duplicate, returning false
without touching the store; otherwise exactly one new OPEN alert row
is appended and true is returned. -/
theorem evaluate_algorithm (cfg : List Config) (sid : Nat) (env hn mt : String)
    (v : ℚ) (label : Option String) (now : Nat) (db : DB) :
    (getThreshold cfg mt env hn label = none →
       evaluate cfg sid env hn mt v label now db = (false, db)) ∧
    (∀ t, getThreshold cfg mt env hn label = some t →
       classify v t = Severity.OK →
       evaluate cfg sid env hn mt v label now db =
         (false, autoResolve sid mt label now db)) ∧
    (∀ t, getThreshold cfg mt env hn label = some t →
       classify v t ≠ Severity.OK →
       hasOpenAlert sid mt label db = true →
       evaluate cfg sid env hn mt v label now db = (false, db)) ∧
    (∀ t, getThreshold cfg mt env hn label = some t →
       classify v t ≠ Severity.OK →
       hasOpenAlert sid mt label db = false →
       (evaluate cfg sid env hn mt v label now db).1 = true ∧
       (evaluate cfg sid env hn mt v label now db).2.alerts =
         db.alerts ++ [newAlert sid mt v label now t db] ∧
       (evaluate cfg sid env hn mt v label now db).2.nextId = db.nextId + 1 ∧
       (newAlert sid mt v label now t db).status = AlertStatus.OPEN) := by
  refine ⟨fun h => evaluate_no_threshold now db h,
          fun t hth hsev => evaluate_ok_branch now db hth hsev,
          fun t hth hsev hopen => evaluate_suppressed now hth hsev hopen,
          fun t hth hsev hopen => ?_⟩
  rw [evaluate_creates now hth hsev hopen]
  exact ⟨rfl, rfl, rfl, rfl⟩

/-- Witness for C3: with the global PROD disk threshold (75, 90), a
reading of 92 on an empty store creates exactly one OPEN alert. -/
theorem evaluate_algorithm_witness :
    (evaluate [⟨"DISK_USAGE", "PROD", "", "", 75, 90⟩] 1 "PROD" "h1"
        "DISK_USAGE" 92 (some "/") 5 initDB).1 = true ∧
    (evaluate [⟨"DISK_USAGE", "PROD", "", "", 75, 90⟩] 1 "PROD" "h1"
        "DISK_USAGE" 92 (some "/") 5 initDB).2.alerts =
      initDB.alerts ++
        [newAlert 1 "DISK_USAGE" 92 (some "/") 5 ⟨75, 90⟩ initDB] ∧
    (evaluate [⟨"DISK_USAGE", "PROD", "", "", 75, 90⟩] 1 "PROD" "h1"
        "DISK_USAGE" 92 (some "/") 5 initDB).2.nextId = initDB.nextId + 1 ∧
    (newAlert 1 "DISK_USAGE" 92 (some "/") 5 ⟨75, 90⟩ initDB).status =
      AlertStatus.OPEN :=
  (evaluate_algorithm [⟨"DISK_USAGE", "PROD", "", "", 75, 90⟩] 1 "PROD" "h1"
      "DISK_USAGE" 92 (some "/") 5 initDB).2.2.2 ⟨75, 90⟩
    (by decide) (by decide) (by decide)

/-! ### Threshold resolution: specificity -/

/-- The specificity score exactly as the spec words it: 0 for each
component of the row that equals the request component, 1 otherwise. -/
def claimSpecScore (hn lbl : String) (c : Config) : Nat :=
  (if c.hostname = hn then 0 else 1) + (if c.path_label = lbl then 0 else 1)
theorem selectMin_cons_none {hn lbl : String} {c : Config} {cs : List Config}
    (hs : selectMin hn lbl cs = none) :
    selectMin hn lbl (c :: cs) = some c := by
  unfold selectMin
  rw [hs]

theorem selectMin_cons_some {hn lbl : String} {c b : Config} {cs : List Config}
    (hs : selectMin hn lbl cs = some b) :
    selectMin hn lbl (c :: cs) =
      if specScore hn lbl c ≤ specScore hn lbl b then some c else some b := by
  unfold selectMin
  rw [hs]

theorem selectMin_eq_none {hn lbl : String} {l : List Config} :
    selectMin hn lbl l = none ↔ l = [] := by
  cases l with
  | nil => simp [selectMin]
  | cons c cs =>
    refine ⟨fun h => ?_, fun h => by cases h⟩
    cases hs : selectMin hn lbl cs with
    | none =>
      rw [selectMin_cons_none hs] at h
      cases h
    | some b =>
      rw [selectMin_cons_some hs] at h
      split at h <;> cases h

theorem selectMin_mem {hn lbl : String} {l : List Config} {c : Config}
    (h : selectMin hn lbl l = some c) : c ∈ l := by
  induction l with
  | nil => simp [selectMin] at h
  | cons a as ih =>
    cases hs : selectMin hn lbl as with
    | none =>
      rw [selectMin_cons_none hs] at h
      cases h
      exact List.mem_cons_self _ _
    | some b =>
      rw [selectMin_cons_some hs] at h
      by_cases hle : specScore hn lbl a ≤ specScore hn lbl b
      · rw [if_pos hle] at h
        cases h
        exact List.mem_cons_self _ _
      · rw [if_neg hle] at h
        cases h
        exact List.mem_cons_of_mem _ (ih hs)

theorem selectMin_min {hn lbl : String} {l : List Config} {c : Config}
    (h : selectMin hn lbl l = some c) :
    ∀ b ∈ l, specScore hn lbl c ≤ specScore hn lbl b := by
  induction l generalizing c with
  | nil => simp [selectMin] at h
  | cons a as ih =>
    intro x hx
    cases hs : selectMin hn lbl as with
    | none =>
      rw [selectMin_cons_none hs] at h
      cases h
      rcases List.mem_cons.mp hx with hxa | hxas
      · rw [hxa]
      · rw [selectMin_eq_none.mp hs] at hxas
        exact absurd hxas (List.not_mem_nil x)
    | some b =>
      rw [selectMin_cons_some hs] at h
      by_cases hle : specScore hn lbl a ≤ specScore hn lbl b
      · rw [if_pos hle] at h
        cases h
        rcases List.mem_cons.mp hx with hxa | hxas
        · rw [hxa]
        · exact hle.trans (ih hs x hxas)
      · rw [if_neg hle] at h
        injection h with h'
        subst h'
        rcases List.mem_cons.mp hx with hxa | hxas
        · rw [hxa]
          exact (Nat.lt_of_not_le hle).le
        · exact ih hs x hxas

theorem selectMin_eq_of_strict {hn lbl : String} {l : List Config} {c : Config}
    (hc : c ∈ l)
    (hmin : ∀ b ∈ l, b ≠ c → specScore hn lbl c < specScore hn lbl b) :
    selectMin hn lbl l = some c := by
  induction l with
  | nil => exact absurd hc (List.not_mem_nil c)
  | cons a as ih =>
    by_cases hac : a = c
    · subst hac
      cases hs : selectMin hn lbl as with
      | none => exact selectMin_cons_none hs
      | some b =>
        rw [selectMin_cons_some hs]
        have hb : b ∈ as := selectMin_mem hs
        by_cases hbc : b = a
        · rw [if_pos (le_of_eq (by rw [hbc]))]
        · rw [if_pos (hmin b (List.mem_cons_of_mem a hb) hbc).le]
    · have hcas : c ∈ as := by
        rcases List.mem_cons.mp hc with h | h
        · exact absurd h.symm hac
        · exact h
      have hrec : selectMin hn lbl as = some c :=
        ih hcas (fun b hb hbc => hmin b (List.mem_cons_of_mem a hb) hbc)
      rw [selectMin_cons_some hrec]
      rw [if_neg (Nat.not_le.mpr (hmin a (List.mem_cons_self a as) hac))]

theorem specScore_eq_claim_add {hn lbl : String} {c : Config}
    (h1 : c.hostname = hn ∨ c.hostname = "")
    (h2 : c.path_label = lbl ∨ c.path_label = "") :
    specScore hn lbl c =
      claimSpecScore hn lbl c +
        ((if hn = "" then 1 else 0) + (if lbl = "" then 1 else 0)) := by
  have hh : (if c.hostname = hn ∧ c.hostname ≠ "" then 0 else 1) =
      (if c.hostname = hn then 0 else 1) + (if hn = "" then 1 else 0) := by
    by_cases hhn : hn = ""
    · subst hhn
      have hch : c.hostname = "" := by rcases h1 with h | h <;> exact h
      rw [if_neg (fun hx => hx.2 hch), if_pos hch, if_pos rfl]
    · rcases h1 with h | h
      · rw [if_pos ⟨h, by rw [h]; exact hhn⟩, if_pos h, if_neg hhn]
      · have hne : ¬c.hostname = hn := by
          rw [h]
          exact fun hx => hhn hx.symm
        rw [if_neg (fun hx => hne hx.1), if_neg hne, if_neg hhn]
  have hl : (if c.path_label = lbl ∧ c.path_label ≠ "" then 0 else 1) =
      (if c.path_label = lbl then 0 else 1) + (if lbl = "" then 1 else 0) := by
    by_cases hll : lbl = ""
    · subst hll
      have hcl : c.path_label = "" := by rcases h2 with h | h <;> exact h
      rw [if_neg (fun hx => hx.2 hcl), if_pos hcl, if_pos rfl]
    · rcases h2 with h | h
      · rw [if_pos ⟨h, by rw [h]; exact hll⟩, if_pos h, if_neg hll]
      · have hne : ¬c.path_label = lbl := by
          rw [h]
          exact fun hx => hll hx.symm
        rw [if_neg (fun hx => hne hx.1), if_neg hne, if_neg hll]
  unfold specScore claimSpecScore
  rw [hh, hl]
  omega

/-- C4: with rows scoped (H, L), (H, empty) and (empty, empty)
configured, a reading from host H with label L resolves to the (H, L)
row; with only the latter two it resolves to the (H, empty) row; and
in general the resolved threshold always comes from a matching row of
minimal specificity score, score as worded in the spec. -/
theorem threshold_specificity :
    (∀ (mt env H L : String) (w1 c1 w2 c2 w3 c3 : ℚ) (cfg : List Config),
       L ≠ "" →
       (⟨mt, env, H, L, w1, c1⟩ : Config) ∈ cfg →
       (∀ c ∈ cfg, c = (⟨mt, env, H, L, w1, c1⟩ : Config) ∨
          c = (⟨mt, env, H, "", w2, c2⟩ : Config) ∨
          c = (⟨mt, env, "", "", w3, c3⟩ : Config)) →
       getThreshold cfg mt env H (some L) = some ⟨w1, c1⟩) ∧
    (∀ (mt env H L : String) (w2 c2 w3 c3 : ℚ) (cfg : List Config),
       H ≠ "" →
       (⟨mt, env, H, "", w2, c2⟩ : Config) ∈ cfg →
       (∀ c ∈ cfg, c = (⟨mt, env, H, "", w2, c2⟩ : Config) ∨
          c = (⟨mt, env, "", "", w3, c3⟩ : Config)) →
       getThreshold cfg mt env H (some L) = some ⟨w2, c2⟩) ∧
    (∀ (cfg : List Config) (mt env hn : String) (label : Option String)
       (t : Threshold),
       getThreshold cfg mt env hn label = some t →
       ∃ c ∈ cfg, configMatches mt env hn (label.getD "") c = true ∧
         t = ⟨c.warning_threshold, c.critical_threshold⟩ ∧
         ∀ b ∈ cfg, configMatches mt env hn (label.getD "") b = true →
           claimSpecScore hn (label.getD "") c ≤
             claimSpecScore hn (label.getD "") b) := by
  have score1 : ∀ (mt env H L : String) (w c : ℚ), L ≠ "" →
      specScore H L (⟨mt, env, H, L, w, c⟩ : Config) =
        (if H = H ∧ H ≠ "" then 0 else 1) + 0 := by
    intro mt env H L w c hL
    show (if H = H ∧ H ≠ "" then 0 else 1) +
        (if L = L ∧ L ≠ "" then 0 else 1) =
      (if H = H ∧ H ≠ "" then 0 else 1) + 0
    rw [if_pos (show L = L ∧ L ≠ "" from ⟨rfl, hL⟩)]
  have score2 : ∀ (mt env H L : String) (w c : ℚ),
      specScore H L (⟨mt, env, H, "", w, c⟩ : Config) =
        (if H = H ∧ H ≠ "" then 0 else 1) + 1 := by
    intro mt env H L w c
    show (if H = H ∧ H ≠ "" then 0 else 1) +
        (if ("" : String) = L ∧ ("" : String) ≠ "" then 0 else 1) =
      (if H = H ∧ H ≠ "" then 0 else 1) + 1
    rw [if_neg (show ¬(("" : String) = L ∧ ("" : String) ≠ "") from
      fun hx => hx.2 rfl)]
  have score3 : ∀ (H L : String) (mt env : String) (w c : ℚ),
      specScore H L (⟨mt, env, "", "", w, c⟩ : Config) = 2 := by
    intro H L mt env w c
    show (if ("" : String) = H ∧ ("" : String) ≠ "" then 0 else 1) +
        (if ("" : String) = L ∧ ("" : String) ≠ "" then 0 else 1) = 2
    rw [if_neg (show ¬(("" : String) = H ∧ ("" : String) ≠ "") from
      fun hx => hx.2 rfl)]
    rw [if_neg (show ¬(("" : String) = L ∧ ("" : String) ≠ "") from
      fun hx => hx.2 rfl)]
  refine ⟨?_, ?_, ?_⟩
  · intro mt env H L w1 c1 w2 c2 w3 c3 cfg hL hr1 hsub
    have hmatch : configMatches mt env H L (⟨mt, env, H, L, w1, c1⟩ : Config) = true := by
      simp [configMatches]
    have hfil : (⟨mt, env, H, L, w1, c1⟩ : Config) ∈
        cfg.filter (configMatches mt env H L) :=
      List.mem_filter.mpr ⟨hr1, hmatch⟩
    have hstrict : ∀ b ∈ cfg.filter (configMatches mt env H L),
        b ≠ (⟨mt, env, H, L, w1, c1⟩ : Config) →
        specScore H L (⟨mt, env, H, L, w1, c1⟩ : Config) < specScore H L b := by
      intro b hb hbne
      have hbcfg : b ∈ cfg := (List.mem_filter.mp hb).1
      rcases hsub b hbcfg with h | h | h
      · exact absurd h hbne
      · subst h
        rw [score1 mt env H L w1 c1 hL, score2 mt env H L w2 c2]
        omega
      · subst h
        rw [score1 mt env H L w1 c1 hL, score3 H L mt env w3 c3]
        split <;> omega
    unfold getThreshold
    simp only [Option.getD_some]
    rw [selectMin_eq_of_strict hfil hstrict]
  · intro mt env H L w2 c2 w3 c3 cfg hH hr2 hsub
    have hmatch : configMatches mt env H L (⟨mt, env, H, "", w2, c2⟩ : Config) = true := by
      simp [configMatches]
    have hfil : (⟨mt, env, H, "", w2, c2⟩ : Config) ∈
        cfg.filter (configMatches mt env H L) :=
      List.mem_filter.mpr ⟨hr2, hmatch⟩
    have hstrict : ∀ b ∈ cfg.filter (configMatches mt env H L),
        b ≠ (⟨mt, env, H, "", w2, c2⟩ : Config) →
        specScore H L (⟨mt, env, H, "", w2, c2⟩ : Config) < specScore H L b := by
      intro b hb hbne
      have hbcfg : b ∈ cfg := (List.mem_filter.mp hb).1
      rcases hsub b hbcfg with h | h
      · exact absurd h hbne
      · subst h
        rw [score2 mt env H L w2 c2, score3 H L mt env w3 c3]
        rw [if_pos (show H = H ∧ H ≠ "" from ⟨rfl, hH⟩)]
        omega
    unfold getThreshold
    simp only [Option.getD_some]
    rw [selectMin_eq_of_strict hfil hstrict]
  · intro cfg mt env hn label t hres
    unfold getThreshold at hres
    cases hsel : selectMin hn (label.getD "")
        (cfg.filter (configMatches mt env hn (label.getD ""))) with
    | none =>
      rw [hsel] at hres
      cases hres
    | some c =>
      rw [hsel] at hres
      refine ⟨c, (List.mem_filter.mp (selectMin_mem hsel)).1,
        (List.mem_filter.mp (selectMin_mem hsel)).2, ?_, ?_⟩
      · cases hres
        rfl
      · intro b hb hbm
        have hbf : b ∈ cfg.filter (configMatches mt env hn (label.getD "")) :=
          List.mem_filter.mpr ⟨hb, hbm⟩
        have hle := selectMin_min hsel b hbf
        have hcm := (List.mem_filter.mp (selectMin_mem hsel)).2
        have hc1 : c.hostname = hn ∨ c.hostname = "" :=
          (of_decide_eq_true hcm).2.2.1
        have hc2 : c.path_label = label.getD "" ∨ c.path_label = "" :=
          (of_decide_eq_true hcm).2.2.2
        have hb1 : b.hostname = hn ∨ b.hostname = "" :=
          (of_decide_eq_true hbm).2.2.1
        have hb2 : b.path_label = label.getD "" ∨ b.path_label = "" :=
          (of_decide_eq_true hbm).2.2.2
        rw [specScore_eq_claim_add hc1 hc2, specScore_eq_claim_add hb1 hb2] at hle
        omega

/-- Witness for C4: the override for host h1 and mount slash wins over
the host-wide and the global rows, and without it the host-wide row
wins. -/
theorem threshold_specificity_witness :
    getThreshold [⟨"DISK_USAGE", "PROD", "h1", "/", 50, 60⟩,
        ⟨"DISK_USAGE", "PROD", "h1", "", 65, 70⟩,
        ⟨"DISK_USAGE", "PROD", "", "", 75, 90⟩]
      "DISK_USAGE" "PROD" "h1" (some "/") = some ⟨50, 60⟩ ∧
    getThreshold [⟨"DISK_USAGE", "PROD", "h1", "", 65, 70⟩,
        ⟨"DISK_USAGE", "PROD", "", "", 75, 90⟩]
      "DISK_USAGE" "PROD" "h1" (some "/") = some ⟨65, 70⟩ := by
  constructor
  · exact threshold_specificity.1 "DISK_USAGE" "PROD" "h1" "/" 50 60 65 70 75 90
      _ (by decide) (by decide) (by decide)
  · exact threshold_specificity.2.1 "DISK_USAGE" "PROD" "h1" "/" 65 70 75 90
      _ (by decide) (by decide) (by decide)

/-! ### Repeated breach and recurrence -/

theorem map_id_on {α : Type} {l : List α} {f : α → α}
    (h : ∀ x ∈ l, f x = x) : l.map f = l := by
  induction l with
  | nil => rfl
  | cons a as ih =>
    simp only [List.map_cons]
    rw [h a (List.mem_cons_self a as),
      ih (fun x hx => h x (List.mem_cons_of_mem a hx))]

theorem openPred_newAlert (sid : Nat) (mt : String) (v : ℚ)
    (label : Option String) (now : Nat) (t : Threshold) (db : DB) :
    openPred sid mt label (newAlert sid mt v label now t db) = true := by
  simp [openPred, newAlert]

theorem openPred_false_of_no_open {sid : Nat} {mt : String}
    {label : Option String} {db : DB}
    (hopen : hasOpenAlert sid mt label db = false) :
    ∀ x ∈ db.alerts, openPred sid mt label x = false := by
  intro x hx
  have hnp := List.any_eq_false.mp hopen x hx
  cases hb : openPred sid mt label x with
  | false => rfl
  | true => exact absurd hb hnp

theorem hasOpenAlert_after_create (sid : Nat) (mt : String) (v : ℚ)
    (label : Option String) (now : Nat) (t : Threshold) (db : DB) :
    hasOpenAlert sid mt label
      ⟨db.alerts ++ [newAlert sid mt v label now t db], db.nextId + 1⟩ = true := by
  unfold hasOpenAlert
  rw [List.any_append]
  simp [openPred_newAlert]

/-- `evaluate` iterated on one fixed reading, the k-th submission
carrying timestamp `times k`. -/
def evalN (cfg : List Config) (sid : Nat) (env hn mt : String) (v : ℚ)
    (label : Option String) (times : Nat → Nat) : Nat → DB → DB
  | 0, db => db
  | k + 1, db =>
    (evaluate cfg sid env hn mt v label (times k)
      (evalN cfg sid env hn mt v label times k db)).2

/-- C5: submitting the same breaching value N ≥ 1 times for one tuple
with no intervening OK reading creates exactly one alert: the first
evaluation returns true, the store is never changed again, and every
subsequent evaluation returns false. -/
theorem repeated_breach_idempotent (cfg : List Config) (sid : Nat)
    (env hn mt : String) (v : ℚ) (label : Option String) (times : Nat → Nat)
    (db : DB) (t : Threshold)
    (hth : getThreshold cfg mt env hn label = some t)
    (hsev : classify v t ≠ Severity.OK)
    (hopen : hasOpenAlert sid mt label db = false) :
    (evaluate cfg sid env hn mt v label (times 0) db).1 = true ∧
    (∀ N, 1 ≤ N → evalN cfg sid env hn mt v label times N db =
       (evaluate cfg sid env hn mt v label (times 0) db).2) ∧
    (∀ N, 1 ≤ N →
       (evalN cfg sid env hn mt v label times N db).alerts.length =
         db.alerts.length + 1) ∧
    (∀ k, 1 ≤ k →
       (evaluate cfg sid env hn mt v label (times k)
         (evalN cfg sid env hn mt v label times k db)).1 = false) := by
  have hc := evaluate_creates (times 0) hth hsev hopen
  have hopen1 : hasOpenAlert sid mt label
      (evaluate cfg sid env hn mt v label (times 0) db).2 = true := by
    rw [hc]
    exact hasOpenAlert_after_create sid mt v label (times 0) t db
  have hfix : ∀ N, 1 ≤ N → evalN cfg sid env hn mt v label times N db =
      (evaluate cfg sid env hn mt v label (times 0) db).2 := by
    intro N hN
    induction N with
    | zero => omega
    | succ k ih =>
      by_cases hk : k = 0
      · subst hk
        simp only [evalN]
      · have hk1 : 1 ≤ k := by omega
        simp only [evalN]
        rw [ih hk1, evaluate_suppressed (times k) hth hsev hopen1]
  refine ⟨by rw [hc], hfix, fun N hN => ?_, fun k hk => ?_⟩
  · rw [hfix N hN, hc]
    simp
  · rw [hfix k hk, evaluate_suppressed (times k) hth hsev hopen1]

/-- Witness for C5: three submissions of value 92 against the PROD
disk threshold create exactly one alert. -/
theorem repeated_breach_idempotent_witness :
    (evaluate [⟨"DISK_USAGE", "PROD", "", "", 75, 90⟩] 1 "PROD" "h1"
      "DISK_USAGE" 92 (some "/") ((fun k => k) 0) initDB).1 = true ∧
    (evalN [⟨"DISK_USAGE", "PROD", "", "", 75, 90⟩] 1 "PROD" "h1"
      "DISK_USAGE" 92 (some "/") (fun k => k) 3 initDB).alerts.length =
      initDB.alerts.length + 1 :=
  ⟨(repeated_breach_idempotent [⟨"DISK_USAGE", "PROD", "", "", 75, 90⟩] 1
      "PROD" "h1" "DISK_USAGE" 92 (some "/") (fun k => k) initDB ⟨75, 90⟩
      (by decide) (by decide) (by decide)).1,
   (repeated_breach_idempotent [⟨"DISK_USAGE", "PROD", "", "", 75, 90⟩] 1
      "PROD" "h1" "DISK_USAGE" 92 (some "/") (fun k => k) initDB ⟨75, 90⟩
      (by decide) (by decide) (by decide)).2.2.1 3 (by omega)⟩

theorem autoResolve_of_clean (sid : Nat) (mt : String) (label : Option String)
    (now : Nat) (l1 : List Alert) (a : Alert) (nid : Nat)
    (hclean : ∀ x ∈ l1, openPred sid mt label x = false)
    (ha : openPred sid mt label a = true) :
    autoResolve sid mt label now ⟨l1 ++ [a], nid⟩ =
      ⟨l1 ++ [{ a with status := AlertStatus.RESOLVED, resolved_at := some now }],
       nid⟩ := by
  unfold autoResolve
  congr 1
  rw [List.map_append]
  have e1 : l1.map (fun x => if openPred sid mt label x then
      { x with status := AlertStatus.RESOLVED, resolved_at := some now }
      else x) = l1 :=
    map_id_on (fun x hx => by rw [hclean x hx]; rfl)
  rw [e1]
  simp only [List.map_cons, List.map_nil]
  rw [if_pos ha]

theorem openPred_resolved (sid : Nat) (mt : String) (label : Option String)
    (a : Alert) (r : Option Nat) :
    openPred sid mt label
      { a with status := AlertStatus.RESOLVED, resolved_at := r } = false := by
  simp [openPred]

/-- C6: breach, then OK, then breach again yields two alert rows with
distinct identities: the OK reading moves the first to RESOLVED with
its resolution timestamp set, and the second breach appends a brand
new OPEN alert while the first stays RESOLVED. -/
theorem breach_ok_breach (cfg : List Config) (sid : Nat) (env hn mt : String)
    (v1 v2 v3 : ℚ) (label : Option String) (t1 t2 t3 : Nat) (db : DB)
    (th : Threshold)
    (hth : getThreshold cfg mt env hn label = some th)
    (h1 : classify v1 th ≠ Severity.OK)
    (h2 : classify v2 th = Severity.OK)
    (h3 : classify v3 th ≠ Severity.OK)
    (hopen : hasOpenAlert sid mt label db = false) :
    (evaluate cfg sid env hn mt v1 label t1 db).1 = true ∧
    (evaluate cfg sid env hn mt v2 label t2
       (evaluate cfg sid env hn mt v1 label t1 db).2).1 = false ∧
    (evaluate cfg sid env hn mt v3 label t3
       (evaluate cfg sid env hn mt v2 label t2
         (evaluate cfg sid env hn mt v1 label t1 db).2).2).1 = true ∧
    ∃ a1 a2 : Alert,
      (evaluate cfg sid env hn mt v3 label t3
        (evaluate cfg sid env hn mt v2 label t2
          (evaluate cfg sid env hn mt v1 label t1 db).2).2).2.alerts =
        db.alerts ++ [a1, a2] ∧
      a1.id ≠ a2.id ∧
      a1.status = AlertStatus.RESOLVED ∧ a1.resolved_at = some t2 ∧
      a2.status = AlertStatus.OPEN ∧ a2.resolved_at = none := by
  have hc1 := evaluate_creates t1 hth h1 hopen
  have hstep2 : evaluate cfg sid env hn mt v2 label t2
      (evaluate cfg sid env hn mt v1 label t1 db).2 =
      (false, autoResolve sid mt label t2
        (evaluate cfg sid env hn mt v1 label t1 db).2) :=
    evaluate_ok_branch t2 (evaluate cfg sid env hn mt v1 label t1 db).2 hth h2
  have hauto : autoResolve sid mt label t2
      (evaluate cfg sid env hn mt v1 label t1 db).2 =
      ⟨db.alerts ++
         [{ newAlert sid mt v1 label t1 th db with
            status := AlertStatus.RESOLVED, resolved_at := some t2 }],
       db.nextId + 1⟩ := by
    rw [hc1]
    exact autoResolve_of_clean sid mt label t2 db.alerts _ (db.nextId + 1)
      (openPred_false_of_no_open hopen)
      (openPred_newAlert sid mt v1 label t1 th db)
  have hopen2 : hasOpenAlert sid mt label
      (evaluate cfg sid env hn mt v2 label t2
        (evaluate cfg sid env hn mt v1 label t1 db).2).2 = false := by
    rw [hstep2]
    show hasOpenAlert sid mt label
      (autoResolve sid mt label t2
        (evaluate cfg sid env hn mt v1 label t1 db).2) = false
    rw [hauto]
    unfold hasOpenAlert
    dsimp only
    rw [List.any_append]
    rw [show db.alerts.any (openPred sid mt label) = false from hopen]
    simp [openPred, newAlert]
  have hc3 := evaluate_creates t3 hth h3 hopen2
  refine ⟨by rw [hc1], by rw [hstep2], by rw [hc3], ?_⟩
  refine ⟨{ newAlert sid mt v1 label t1 th db with
              status := AlertStatus.RESOLVED, resolved_at := some t2 },
          newAlert sid mt v3 label t3 th
            (evaluate cfg sid env hn mt v2 label t2
              (evaluate cfg sid env hn mt v1 label t1 db).2).2, ?_, ?_, rfl, rfl, rfl, rfl⟩
  · rw [hc3]
    show (evaluate cfg sid env hn mt v2 label t2
        (evaluate cfg sid env hn mt v1 label t1 db).2).2.alerts ++ [_] = _
    rw [hstep2]
    show (autoResolve sid mt label t2
        (evaluate cfg sid env hn mt v1 label t1 db).2).alerts ++ [_] = _
    rw [hauto]
    rw [List.append_assoc]
    rfl
  · show ({ newAlert sid mt v1 label t1 th db with
        status := AlertStatus.RESOLVED, resolved_at := some t2 } : Alert).id ≠ _
    have e1 : ({ newAlert sid mt v1 label t1 th db with
        status := AlertStatus.RESOLVED, resolved_at := some t2 } : Alert).id =
        db.nextId := rfl
    have e2 : (newAlert sid mt v3 label t3 th
        (evaluate cfg sid env hn mt v2 label t2
          (evaluate cfg sid env hn mt v1 label t1 db).2).2).id =
        (evaluate cfg sid env hn mt v2 label t2
          (evaluate cfg sid env hn mt v1 label t1 db).2).2.nextId := rfl
    rw [e1, e2, hstep2]
    show db.nextId ≠ (autoResolve sid mt label t2
        (evaluate cfg sid env hn mt v1 label t1 db).2).nextId
    rw [hauto]
    show db.nextId ≠ db.nextId + 1
    omega

/-- Witness for C6: readings 92, 60, 95 against the PROD disk
threshold on an empty store. -/
theorem breach_ok_breach_witness :
    (evaluate [⟨"DISK_USAGE", "PROD", "", "", 75, 90⟩] 1 "PROD" "h1"
      "DISK_USAGE" 92 (some "/") 1 initDB).1 = true ∧
    (evaluate [⟨"DISK_USAGE", "PROD", "", "", 75, 90⟩] 1 "PROD" "h1"
      "DISK_USAGE" 60 (some "/") 2
      (evaluate [⟨"DISK_USAGE", "PROD", "", "", 75, 90⟩] 1 "PROD" "h1"
        "DISK_USAGE" 92 (some "/") 1 initDB).2).1 = false ∧
    (evaluate [⟨"DISK_USAGE", "PROD", "", "", 75, 90⟩] 1 "PROD" "h1"
      "DISK_USAGE" 95 (some "/") 3
      (evaluate [⟨"DISK_USAGE", "PROD", "", "", 75, 90⟩] 1 "PROD" "h1"
        "DISK_USAGE" 60 (some "/") 2
        (evaluate [⟨"DISK_USAGE", "PROD", "", "", 75, 90⟩] 1 "PROD" "h1"
          "DISK_USAGE" 92 (some "/") 1 initDB).2).2).1 = true ∧
    ∃ a1 a2 : Alert,
      (evaluate [⟨"DISK_USAGE", "PROD", "", "", 75, 90⟩] 1 "PROD" "h1"
        "DISK_USAGE" 95 (some "/") 3
        (evaluate [⟨"DISK_USAGE", "PROD", "", "", 75, 90⟩] 1 "PROD" "h1"
          "DISK_USAGE" 60 (some "/") 2
          (evaluate [⟨"DISK_USAGE", "PROD", "", "", 75, 90⟩] 1 "PROD" "h1"
            "DISK_USAGE" 92 (some "/") 1 initDB).2).2).2.alerts =
        initDB.alerts ++ [a1, a2] ∧
      a1.id ≠ a2.id ∧
      a1.status = AlertStatus.RESOLVED ∧ a1.resolved_at = some 2 ∧
      a2.status = AlertStatus.OPEN ∧ a2.resolved_at = none :=
  breach_ok_breach [⟨"DISK_USAGE", "PROD", "", "", 75, 90⟩] 1 "PROD" "h1"
    "DISK_USAGE" 92 60 95 (some "/") 1 2 3 initDB ⟨75, 90⟩
    (by decide) (by decide) (by decide) (by decide) (by decide)

/-! ### Operator transitions: guards and frame -/

/-- C7: acknowledge fails with a client-visible InvalidTransition
exactly when the alert is not OPEN, resolve fails with
InvalidTransition exactly when the alert is already RESOLVED, and an
unknown id yields NotFound for both; failures return no updated
store. -/
theorem ack_resolve_guards (db : DB) (aid : Nat) (who : String) (now : Nat) :
    (findAlert db aid = none →
       acknowledgeAlert db aid who = Except.error ApiError.NotFound ∧
       resolveAlert db aid now = Except.error ApiError.NotFound) ∧
    (∀ a, findAlert db aid = some a →
       ((acknowledgeAlert db aid who = Except.error ApiError.InvalidTransition) ↔
          a.status ≠ AlertStatus.OPEN) ∧
       ((resolveAlert db aid now = Except.error ApiError.InvalidTransition) ↔
          a.status = AlertStatus.RESOLVED)) := by
  constructor
  · intro h
    refine ⟨?_, ?_⟩
    · unfold acknowledgeAlert
      rw [h]
    · unfold resolveAlert
      rw [h]
  · intro a ha
    constructor
    · unfold acknowledgeAlert
      rw [ha]
      dsimp only
      by_cases hs : a.status = AlertStatus.OPEN
      · rw [if_neg (fun hcon => hcon hs)]
        exact ⟨fun h => Except.noConfusion h, fun h => absurd hs h⟩
      · rw [if_pos hs]
        exact ⟨fun _ => hs, fun _ => rfl⟩
    · unfold resolveAlert
      rw [ha]
      dsimp only
      by_cases hs : a.status = AlertStatus.RESOLVED
      · rw [if_pos hs]
        exact ⟨fun _ => hs, fun _ => rfl⟩
      · rw [if_neg hs]
        exact ⟨fun h => Except.noConfusion h, fun h => absurd h hs⟩

/-- Witness for C7: on a store holding one RESOLVED alert with id 0,
acknowledging or resolving id 0 is an InvalidTransition and id 5 is
NotFound. -/
theorem ack_resolve_guards_witness :
    acknowledgeAlert
      ⟨[⟨0, 1, "DISK_USAGE", Severity.WARNING, none, 80, "m",
         AlertStatus.RESOLVED, none, 0, some 2⟩], 1⟩ 0 "op" =
      Except.error ApiError.InvalidTransition ∧
    resolveAlert
      ⟨[⟨0, 1, "DISK_USAGE", Severity.WARNING, none, 80, "m",
         AlertStatus.RESOLVED, none, 0, some 2⟩], 1⟩ 0 3 =
      Except.error ApiError.InvalidTransition ∧
    acknowledgeAlert
      ⟨[⟨0, 1, "DISK_USAGE", Severity.WARNING, none, 80, "m",
         AlertStatus.RESOLVED, none, 0, some 2⟩], 1⟩ 5 "op" =
      Except.error ApiError.NotFound :=
  ⟨((ack_resolve_guards
      ⟨[⟨0, 1, "DISK_USAGE", Severity.WARNING, none, 80, "m",
         AlertStatus.RESOLVED, none, 0, some 2⟩], 1⟩ 0 "op" 3).2
      ⟨0, 1, "DISK_USAGE", Severity.WARNING, none, 80, "m",
       AlertStatus.RESOLVED, none, 0, some 2⟩ (by decide)).1.mpr (by decide),
   ((ack_resolve_guards
      ⟨[⟨0, 1, "DISK_USAGE", Severity.WARNING, none, 80, "m",
         AlertStatus.RESOLVED, none, 0, some 2⟩], 1⟩ 0 "op" 3).2
      ⟨0, 1, "DISK_USAGE", Severity.WARNING, none, 80, "m",
       AlertStatus.RESOLVED, none, 0, some 2⟩ (by decide)).2.mpr (by decide),
   ((ack_resolve_guards
      ⟨[⟨0, 1, "DISK_USAGE", Severity.WARNING, none, 80, "m",
         AlertStatus.RESOLVED, none, 0, some 2⟩], 1⟩ 5 "op" 3).1 (by decide)).1⟩

theorem find_split {α : Type} {p : α → Bool} {l : List α} {a : α}
    (h : l.find? p = some a) :
    ∃ l1 l2, l = l1 ++ a :: l2 ∧ (∀ x ∈ l1, p x = false) ∧ p a = true := by
  induction l with
  | nil => simp [List.find?] at h
  | cons b bs ih =>
    cases hpb : p b with
    | true =>
      rw [List.find?_cons_of_pos _ hpb] at h
      injection h with h'
      subst h'
      exact ⟨[], bs, rfl, fun x hx => absurd hx (List.not_mem_nil x), hpb⟩
    | false =>
      rw [List.find?_cons_of_neg _ (by rw [hpb]; exact Bool.false_ne_true)] at h
      obtain ⟨l1, l2, he, hf, hp⟩ := ih h
      refine ⟨b :: l1, l2, by rw [he]; rfl, ?_, hp⟩
      intro x hx
      rcases List.mem_cons.mp hx with hxb | hxl
      · rw [hxb]
        exact hpb
      · exact hf x hxl

theorem nodup_id_right {l1 l2 : List Alert} {a : Alert}
    (hnd : ((l1 ++ a :: l2).map Alert.id).Nodup) :
    ∀ x ∈ l2, x.id ≠ a.id := by
  rw [List.map_append] at hnd
  have h2 := hnd.of_append_right
  rw [List.map_cons] at h2
  have h3 := List.nodup_cons.mp h2
  intro x hx hxa
  exact h3.1 (by rw [← hxa]; exact List.mem_map_of_mem Alert.id hx)

theorem map_update_split {l1 l2 : List Alert} {a : Alert} {aid : Nat}
    (g : Alert → Alert)
    (hid : a.id = aid)
    (hl1 : ∀ x ∈ l1, (decide (x.id = aid) : Bool) = false)
    (hl2 : ∀ x ∈ l2, x.id ≠ a.id) :
    (l1 ++ a :: l2).map (fun x => if x.id = aid then g x else x) =
      l1 ++ g a :: l2 := by
  rw [List.map_append, List.map_cons]
  rw [map_id_on (fun x hx => if_neg (of_decide_eq_false (hl1 x hx)))]
  rw [if_pos hid]
  rw [map_id_on (fun x hx => if_neg (fun hcon => hl2 x hx (hcon.trans hid.symm)))]

/-- C9: a successful acknowledge rewrites only the targeted row,
changing only its status and acknowledger; a successful manual
resolve rewrites only the targeted row, changing only its status and
resolution timestamp.  All other rows and the id counter are
untouched. -/
theorem ack_resolve_frame (db : DB) (aid : Nat) (who : String) (now : Nat)
    (hnd : (db.alerts.map Alert.id).Nodup) :
    (∀ a' db', acknowledgeAlert db aid who = Except.ok (a', db') →
       db'.nextId = db.nextId ∧
       ∃ a l1 l2, db.alerts = l1 ++ a :: l2 ∧
         db'.alerts = l1 ++ a' :: l2 ∧
         a'.status = AlertStatus.ACKNOWLEDGED ∧
         a'.acknowledged_by = some who ∧
         a'.id = a.id ∧ a'.server_id = a.server_id ∧ a'.metric = a.metric ∧
         a'.severity = a.severity ∧ a'.label = a.label ∧ a'.value = a.value ∧
         a'.message = a.message ∧ a'.created_at = a.created_at ∧
         a'.resolved_at = a.resolved_at) ∧
    (∀ a' db', resolveAlert db aid now = Except.ok (a', db') →
       db'.nextId = db.nextId ∧
       ∃ a l1 l2, db.alerts = l1 ++ a :: l2 ∧
         db'.alerts = l1 ++ a' :: l2 ∧
         a'.status = AlertStatus.RESOLVED ∧ a'.resolved_at = some now ∧
         a'.id = a.id ∧ a'.server_id = a.server_id ∧ a'.metric = a.metric ∧
         a'.severity = a.severity ∧ a'.label = a.label ∧ a'.value = a.value ∧
         a'.message = a.message ∧ a'.acknowledged_by = a.acknowledged_by ∧
         a'.created_at = a.created_at) := by
  constructor
  · intro a' db' hok
    unfold acknowledgeAlert at hok
    cases hfa : findAlert db aid with
    | none =>
      rw [hfa] at hok
      exact Except.noConfusion hok
    | some a =>
      rw [hfa] at hok
      dsimp only at hok
      by_cases hs : a.status = AlertStatus.OPEN
      · rw [if_neg (fun hcon => hcon hs)] at hok
        injection hok with hok'
        injection hok' with h1 h2
        subst h1
        subst h2
        unfold findAlert at hfa
        obtain ⟨l1, l2, he, hf1, hpa⟩ := find_split hfa
        have haid : a.id = aid := of_decide_eq_true hpa
        have hl2 : ∀ x ∈ l2, x.id ≠ a.id := nodup_id_right (by rw [he] at hnd; exact hnd)
        refine ⟨rfl, a, l1, l2, he, ?_, rfl, rfl, rfl, rfl, rfl, rfl, rfl, rfl, rfl, rfl, rfl⟩
        show db.alerts.map _ = _
        rw [he]
        exact map_update_split
          (fun x => { x with status := AlertStatus.ACKNOWLEDGED,
                             acknowledged_by := some who })
          haid hf1 hl2
      · rw [if_pos hs] at hok
        exact Except.noConfusion hok
  · intro a' db' hok
    unfold resolveAlert at hok
    cases hfa : findAlert db aid with
    | none =>
      rw [hfa] at hok
      exact Except.noConfusion hok
    | some a =>
      rw [hfa] at hok
      dsimp only at hok
      by_cases hs : a.status = AlertStatus.RESOLVED
      · rw [if_pos hs] at hok
        exact Except.noConfusion hok
      · rw [if_neg hs] at hok
        injection hok with hok'
        injection hok' with h1 h2
        subst h1
        subst h2
        unfold findAlert at hfa
        obtain ⟨l1, l2, he, hf1, hpa⟩ := find_split hfa
        have haid : a.id = aid := of_decide_eq_true hpa
        have hl2 : ∀ x ∈ l2, x.id ≠ a.id := nodup_id_right (by rw [he] at hnd; exact hnd)
        refine ⟨rfl, a, l1, l2, he, ?_, rfl, rfl, rfl, rfl, rfl, rfl, rfl, rfl, rfl, rfl, rfl⟩
        show db.alerts.map _ = _
        rw [he]
        exact map_update_split
          (fun x => { x with status := AlertStatus.RESOLVED,
                             resolved_at := some now })
          haid hf1 hl2

/-- Witness for C9: acknowledging the single OPEN alert of a concrete
store keeps the id counter, and resolving it likewise. -/
theorem ack_resolve_frame_witness :
    (⟨[⟨0, 1, "DISK_USAGE", Severity.WARNING, none, 80, "m",
        AlertStatus.ACKNOWLEDGED, some "op", 0, none⟩], 1⟩ : DB).nextId =
      (⟨[⟨0, 1, "DISK_USAGE", Severity.WARNING, none, 80, "m",
          AlertStatus.OPEN, none, 0, none⟩], 1⟩ : DB).nextId ∧
    (⟨[⟨0, 1, "DISK_USAGE", Severity.WARNING, none, 80, "m",
        AlertStatus.RESOLVED, none, 0, some 3⟩], 1⟩ : DB).nextId =
      (⟨[⟨0, 1, "DISK_USAGE", Severity.WARNING, none, 80, "m",
          AlertStatus.OPEN, none, 0, none⟩], 1⟩ : DB).nextId :=
  ⟨((ack_resolve_frame
      ⟨[⟨0, 1, "DISK_USAGE", Severity.WARNING, none, 80, "m",
         AlertStatus.OPEN, none, 0, none⟩], 1⟩ 0 "op" 3 (by decide)).1
      ⟨0, 1, "DISK_USAGE", Severity.WARNING, none, 80, "m",
       AlertStatus.ACKNOWLEDGED, some "op", 0, none⟩
      ⟨[⟨0, 1, "DISK_USAGE", Severity.WARNING, none, 80, "m",
         AlertStatus.ACKNOWLEDGED, some "op", 0, none⟩], 1⟩ rfl).1,
   ((ack_resolve_frame
      ⟨[⟨0, 1, "DISK_USAGE", Severity.WARNING, none, 80, "m",
         AlertStatus.OPEN, none, 0, none⟩], 1⟩ 0 "op" 3 (by decide)).2
      ⟨0, 1, "DISK_USAGE", Severity.WARNING, none, 80, "m",
       AlertStatus.RESOLVED, none, 0, some 3⟩
      ⟨[⟨0, 1, "DISK_USAGE", Severity.WARNING, none, 80, "m",
         AlertStatus.RESOLVED, none, 0, some 3⟩], 1⟩ rfl).1⟩

/-! ### Label-absent semantics -/

/-- C10: for a reading without a label, duplicate suppression and
auto-resolution match only alert rows whose label is NULL — a row with
any non-null label is neither counted as a duplicate nor
auto-resolved — while threshold resolution treats the absent label as
the empty string. -/
theorem none_label_semantics (sid : Nat) (mt env hn : String)
    (cfg : List Config) (db : DB) (now : Nat) :
    (hasOpenAlert sid mt none db = true ↔
       ∃ a ∈ db.alerts, a.server_id = sid ∧ a.metric = mt ∧ a.label = none ∧
         (a.status = AlertStatus.OPEN ∨ a.status = AlertStatus.ACKNOWLEDGED)) ∧
    (∀ a : Alert, a.label ≠ none → openPred sid mt none a = false) ∧
    (∀ i : Nat, ∀ a, db.alerts[i]? = some a → a.label ≠ none →
       (autoResolve sid mt none now db).alerts[i]? = some a) ∧
    getThreshold cfg mt env hn none = getThreshold cfg mt env hn (some "") := by
  refine ⟨?_, ?_, ?_, rfl⟩
  · unfold hasOpenAlert
    rw [List.any_eq_true]
    constructor
    · rintro ⟨x, hx, hp⟩
      exact ⟨x, hx, of_decide_eq_true hp⟩
    · rintro ⟨x, hx, hp⟩
      exact ⟨x, hx, decide_eq_true hp⟩
  · intro a hlab
    exact decide_eq_false (fun h => hlab h.2.2.1)
  · intro i a hia hlab
    have hp : openPred sid mt none a = false :=
      decide_eq_false (fun h => hlab h.2.2.1)
    show (db.alerts.map _)[i]? = some a
    rw [List.getElem?_map, hia]
    show some (if openPred sid mt none a then _ else a) = some a
    rw [hp]
    rfl

/-- Witness for C10: an OPEN alert labelled with a mount point is
invisible to suppression for an unlabelled reading, and threshold
resolution for an unlabelled reading equals resolution for the empty
label. -/
theorem none_label_semantics_witness :
    openPred 1 "DISK_USAGE" none
      ⟨0, 1, "DISK_USAGE", Severity.WARNING, some "/", 85, "m",
       AlertStatus.OPEN, none, 0, none⟩ = false ∧
    getThreshold [⟨"DISK_USAGE", "PROD", "", "", 75, 90⟩]
      "DISK_USAGE" "PROD" "h1" none =
      getThreshold [⟨"DISK_USAGE", "PROD", "", "", 75, 90⟩]
        "DISK_USAGE" "PROD" "h1" (some "") :=
  ⟨(none_label_semantics 1 "DISK_USAGE" "PROD" "h1"
      [⟨"DISK_USAGE", "PROD", "", "", 75, 90⟩] initDB 0).2.1
      ⟨0, 1, "DISK_USAGE", Severity.WARNING, some "/", 85, "m",
       AlertStatus.OPEN, none, 0, none⟩ (by decide),
   (none_label_semantics 1 "DISK_USAGE" "PROD" "h1"
      [⟨"DISK_USAGE", "PROD", "", "", 75, 90⟩] initDB 0).2.2.2⟩

/-! ### Alert message format -/

/-- Modelled from the spec words of claim C8: the message format
string with the value followed directly by a space and the word on,
i.e. with no percent sign after the value. -/
def claimMessage (mt : String) (value : ℚ) (label : Option String)
    (sev : Severity) (t : Threshold) : String :=
  mt ++ " is " ++ fmt1 value ++ " on [" ++ label.getD "server" ++ "] (" ++
  sevStr sev ++ " threshold: " ++
  pyFloatRepr (if sev = Severity.CRITICAL then t.critical else t.warning) ++ ")"

/-- Counterexample for C8: the alert actually stored for reading 92
against the (75, 90) PROD disk threshold carries the message with a
percent sign after the value, while the format claimed by the spec
yields the same text without the percent sign; the two differ. -/
theorem message_format_counterexample :
    ((evaluate [⟨"DISK_USAGE", "PROD", "", "", 75, 90⟩] 1 "PROD" "h1"
        "DISK_USAGE" 92 (some "/") 0 initDB).2.alerts.map Alert.message) =
      ["DISK_USAGE is 92.0% on [/] (CRITICAL threshold: 90.0)"] ∧
    claimMessage "DISK_USAGE" 92 (some "/") Severity.CRITICAL ⟨75, 90⟩ =
      "DISK_USAGE is 92.0 on [/] (CRITICAL threshold: 90.0)" ∧
    "DISK_USAGE is 92.0% on [/] (CRITICAL threshold: 90.0)" ≠
      "DISK_USAGE is 92.0 on [/] (CRITICAL threshold: 90.0)" :=
  ⟨by decide, by decide, by decide⟩

/-- The message format as amended: the value is rendered with one
decimal digit and a literal percent sign, the label is bracketed when
present and non-empty and otherwise printed as the bare word server,
and the threshold level shown is the critical one for CRITICAL and
the warning one for WARNING. -/
def claimMessageAmended (mt : String) (value : ℚ) (label : Option String)
    (sev : Severity) (t : Threshold) : String :=
  mt ++ " is " ++ fmt1 value ++ "% on " ++
  (match label with
   | some l => if l = "" then "server" else "[" ++ l ++ "]"
   | none => "server") ++
  " (" ++ sevStr sev ++ " threshold: " ++
  pyFloatRepr (if sev = Severity.CRITICAL then t.critical else t.warning) ++ ")"

/-- C8 (amended): every alert created by the engine stores the message
in the amended format, built from the reading and the resolved
threshold. -/
theorem message_format_amended (cfg : List Config) (sid : Nat)
    (env hn mt : String) (v : ℚ) (label : Option String) (now : Nat) (db : DB)
    (t : Threshold)
    (hth : getThreshold cfg mt env hn label = some t)
    (hsev : classify v t ≠ Severity.OK)
    (hopen : hasOpenAlert sid mt label db = false) :
    (evaluate cfg sid env hn mt v label now db).2.alerts =
      db.alerts ++ [newAlert sid mt v label now t db] ∧
    (newAlert sid mt v label now t db).message =
      claimMessageAmended mt v label (classify v t) t := by
  rw [evaluate_creates now hth hsev hopen]
  exact ⟨rfl, rfl⟩

/-- Witness for C8 (amended): the concrete stored alert for reading 92
carries exactly the amended-format message. -/
theorem message_format_amended_witness :
    (evaluate [⟨"DISK_USAGE", "PROD", "", "", 75, 90⟩] 1 "PROD" "h1"
        "DISK_USAGE" 92 (some "/") 0 initDB).2.alerts =
      initDB.alerts ++ [newAlert 1 "DISK_USAGE" 92 (some "/") 0 ⟨75, 90⟩ initDB] ∧
    (newAlert 1 "DISK_USAGE" 92 (some "/") 0 ⟨75, 90⟩ initDB).message =
      claimMessageAmended "DISK_USAGE" 92 (some "/")
        (classify 92 ⟨75, 90⟩) ⟨75, 90⟩ :=
  message_format_amended [⟨"DISK_USAGE", "PROD", "", "", 75, 90⟩] 1 "PROD" "h1"
    "DISK_USAGE" 92 (some "/") 0 initDB ⟨75, 90⟩
    (by decide) (by decide) (by decide)

/-! ### The open-alert uniqueness invariant -/

/-- Well-formedness of the alert store: every row id is below the
auto-increment counter, ids are unique, and every (server, metric,
label) tuple has at most one OPEN/ACKNOWLEDGED row. -/
def WF (db : DB) : Prop :=
  (∀ a ∈ db.alerts, a.id < db.nextId) ∧
  (db.alerts.map Alert.id).Nodup ∧
  (∀ sid mt lbl, openCount sid mt lbl db ≤ 1)

theorem WF_initDB : WF initDB := by
  refine ⟨?_, ?_, ?_⟩ <;> simp [initDB, openCount]

theorem map_congr_on {α β : Type} {l : List α} {f g : α → β}
    (h : ∀ x ∈ l, f x = g x) : l.map f = l.map g := by
  induction l with
  | nil => rfl
  | cons a as ih =>
    simp only [List.map_cons]
    rw [h a (List.mem_cons_self a as),
      ih (fun x hx => h x (List.mem_cons_of_mem a hx))]

theorem countP_map_le_of_imp {l : List Alert} {f : Alert → Alert}
    {p : Alert → Bool}
    (h : ∀ a ∈ l, p (f a) = true → p a = true) :
    (l.map f).countP p ≤ l.countP p := by
  rw [List.countP_map]
  exact List.countP_mono_left h

theorem WF_autoResolve {db : DB} (hwf : WF db) (sid : Nat) (mt : String)
    (lbl : Option String) (now : Nat) :
    WF (autoResolve sid mt lbl now db) := by
  obtain ⟨hbound, hnd, hcnt⟩ := hwf
  refine ⟨?_, ?_, ?_⟩
  · intro x hx
    obtain ⟨b, hb, hfb⟩ := List.mem_map.mp hx
    have hxb : x.id = b.id := by
      rw [← hfb]
      by_cases hob : openPred sid mt lbl b = true
      · rw [if_pos hob]
      · rw [if_neg hob]
    show x.id < db.nextId
    rw [hxb]
    exact hbound b hb
  · show ((db.alerts.map _).map Alert.id).Nodup
    rw [List.map_map]
    have he : db.alerts.map (Alert.id ∘ fun a =>
        if openPred sid mt lbl a then
          { a with status := AlertStatus.RESOLVED, resolved_at := some now }
        else a) = db.alerts.map Alert.id := by
      apply map_congr_on
      intro b hb
      show (if openPred sid mt lbl b then
          { b with status := AlertStatus.RESOLVED, resolved_at := some now }
        else b).id = b.id
      by_cases hob : openPred sid mt lbl b = true
      · rw [if_pos hob]
      · rw [if_neg hob]
    rw [he]
    exact hnd
  · intro s m l'
    show (db.alerts.map _).countP (openPred s m l') ≤ 1
    refine le_trans (countP_map_le_of_imp ?_) (hcnt s m l')
    intro b hb hpb
    by_cases hob : openPred sid mt lbl b = true
    · rw [if_pos hob, openPred_resolved] at hpb
      exact absurd hpb Bool.false_ne_true
    · rw [if_neg hob] at hpb
      exact hpb

theorem WF_create {db : DB} (hwf : WF db) (sid : Nat) (mt : String) (v : ℚ)
    (label : Option String) (now : Nat) (t : Threshold)
    (hopen : hasOpenAlert sid mt label db = false) :
    WF ⟨db.alerts ++ [newAlert sid mt v label now t db], db.nextId + 1⟩ := by
  obtain ⟨hbound, hnd, hcnt⟩ := hwf
  refine ⟨?_, ?_, ?_⟩
  · intro x hx
    rcases List.mem_append.mp hx with h | h
    · exact Nat.lt_succ_of_lt (hbound x h)
    · rcases List.mem_singleton.mp h with rfl
      exact Nat.lt_succ_self _
  · show ((db.alerts ++ [newAlert sid mt v label now t db]).map Alert.id).Nodup
    rw [List.map_append]
    refine List.Nodup.append hnd (List.nodup_singleton _) ?_
    intro x hx1 hx2
    obtain ⟨b, hb, hfb⟩ := List.mem_map.mp hx1
    rcases List.mem_singleton.mp hx2 with rfl
    have := hbound b hb
    rw [hfb] at this
    show False
    exact absurd this (by simp [newAlert])
  · intro s m l'
    show (db.alerts ++ [newAlert sid mt v label now t db]).countP
      (openPred s m l') ≤ 1
    rw [List.countP_append, List.countP_cons, List.countP_nil]
    by_cases hpn : openPred s m l' (newAlert sid mt v label now t db) = true
    · have hs : sid = s := (of_decide_eq_true hpn).1
      have hm : mt = m := (of_decide_eq_true hpn).2.1
      have hl : label = l' := (of_decide_eq_true hpn).2.2.1
      subst hs
      subst hm
      subst hl
      have h0 : db.alerts.countP (openPred sid mt label) = 0 := by
        rw [List.countP_eq_zero]
        exact List.any_eq_false.mp hopen
      rw [h0, if_pos hpn]
    · rw [if_neg hpn]
      have h1 : db.alerts.countP (openPred s m l') ≤ 1 := hcnt s m l'
      show db.alerts.countP (openPred s m l') + (0 + 0) ≤ 1
      omega

theorem openPred_ack_eq {s : Nat} {m : String} {l' : Option String} {a : Alert}
    (hs : a.status = AlertStatus.OPEN) (w : Option String) :
    openPred s m l'
      { a with status := AlertStatus.ACKNOWLEDGED, acknowledged_by := w } =
      openPred s m l' a := by
  unfold openPred
  exact decide_eq_decide.mpr (by rw [hs]; simp)

theorem WF_update {db : DB} {aid : Nat} {a : Alert} (g : Alert → Alert)
    (hwf : WF db)
    (hfa : db.alerts.find? (fun x => decide (x.id = aid)) = some a)
    (hgid : (g a).id = a.id)
    (hcount : ∀ (s : Nat) (m : String) (l' : Option String),
      (if openPred s m l' (g a) = true then 1 else 0) ≤
        (if openPred s m l' a = true then 1 else 0)) :
    WF { db with alerts := db.alerts.map (fun x =>
           if x.id = aid then g x else x) } := by
  obtain ⟨hbound, hnd, hcnt⟩ := hwf
  obtain ⟨l1, l2, he, hf1, hpa⟩ := find_split hfa
  have haid : a.id = aid := of_decide_eq_true hpa
  have hl2 : ∀ x ∈ l2, x.id ≠ a.id :=
    nodup_id_right (by rw [he] at hnd; exact hnd)
  have hmap : db.alerts.map (fun x => if x.id = aid then g x else x) =
      l1 ++ g a :: l2 := by
    rw [he]
    exact map_update_split g haid hf1 hl2
  refine ⟨?_, ?_, ?_⟩
  · intro x hx
    have hx2 : x ∈ l1 ++ g a :: l2 := by rw [← hmap]; exact hx
    show x.id < db.nextId
    rcases List.mem_append.mp hx2 with h | h
    · exact hbound x (by rw [he]; exact List.mem_append_left _ h)
    · rcases List.mem_cons.mp h with h' | h'
      · rw [h', hgid]
        exact hbound a
          (by rw [he]; exact List.mem_append_right _ (List.mem_cons_self a l2))
      · exact hbound x
          (by rw [he]; exact List.mem_append_right _ (List.mem_cons_of_mem _ h'))
  · show ((db.alerts.map _).map Alert.id).Nodup
    rw [hmap, List.map_append, List.map_cons, hgid]
    have hnd2 : ((l1 ++ a :: l2).map Alert.id).Nodup := by
      rw [← he]
      exact hnd
    rw [List.map_append, List.map_cons] at hnd2
    exact hnd2
  · intro s m l'
    show (db.alerts.map _).countP (openPred s m l') ≤ 1
    rw [hmap, List.countP_append, List.countP_cons]
    have hc := hcnt s m l'
    have hc2 : (l1 ++ a :: l2).countP (openPred s m l') ≤ 1 := by
      rw [← he]
      exact hc
    rw [List.countP_append, List.countP_cons] at hc2
    have hle := hcount s m l'
    omega

theorem WF_acknowledge {db : DB} {aid : Nat} {who : String} {a' : Alert}
    {db' : DB} (hwf : WF db)
    (hok : acknowledgeAlert db aid who = Except.ok (a', db')) : WF db' := by
  unfold acknowledgeAlert at hok
  cases hfa : findAlert db aid with
  | none =>
    rw [hfa] at hok
    exact Except.noConfusion hok
  | some a =>
    rw [hfa] at hok
    dsimp only at hok
    by_cases hs : a.status = AlertStatus.OPEN
    · rw [if_neg (fun hcon => hcon hs)] at hok
      injection hok with hok'
      injection hok' with h1 h2
      subst h2
      exact WF_update
        (fun x => { x with status := AlertStatus.ACKNOWLEDGED,
                           acknowledged_by := some who })
        hwf hfa rfl
        (fun s m l' => le_of_eq (by rw [openPred_ack_eq hs]))
    · rw [if_pos hs] at hok
      exact Except.noConfusion hok

theorem WF_resolve {db : DB} {aid : Nat} {now : Nat} {a' : Alert}
    {db' : DB} (hwf : WF db)
    (hok : resolveAlert db aid now = Except.ok (a', db')) : WF db' := by
  unfold resolveAlert at hok
  cases hfa : findAlert db aid with
  | none =>
    rw [hfa] at hok
    exact Except.noConfusion hok
  | some a =>
    rw [hfa] at hok
    dsimp only at hok
    by_cases hs : a.status = AlertStatus.RESOLVED
    · rw [if_pos hs] at hok
      exact Except.noConfusion hok
    · rw [if_neg hs] at hok
      injection hok with hok'
      injection hok' with h1 h2
      subst h2
      exact WF_update
        (fun x => { x with status := AlertStatus.RESOLVED,
                           resolved_at := some now })
        hwf hfa rfl
        (fun s m l' => by
          rw [openPred_resolved]
          exact Nat.zero_le _)

theorem WF_applyOp (cfg : List Config) (db : DB) (op : Op) (hwf : WF db) :
    WF (applyOp cfg db op) := by
  cases op with
  | eval sid env hn mt v lbl now =>
    show WF (evaluate cfg sid env hn mt v lbl now db).2
    cases hth : getThreshold cfg mt env hn lbl with
    | none =>
      rw [evaluate_no_threshold now db hth]
      exact hwf
    | some t =>
      by_cases hsev : classify v t = Severity.OK
      · rw [evaluate_ok_branch now db hth hsev]
        exact WF_autoResolve hwf sid mt lbl now
      · cases hopen : hasOpenAlert sid mt lbl db with
        | true =>
          rw [evaluate_suppressed now hth hsev hopen]
          exact hwf
        | false =>
          rw [evaluate_creates now hth hsev hopen]
          exact WF_create hwf sid mt v lbl now t hopen
  | ack aid who =>
    show WF (match acknowledgeAlert db aid who with
      | Except.ok p => p.2
      | Except.error _ => db)
    cases hok : acknowledgeAlert db aid who with
    | error e => exact hwf
    | ok p =>
      obtain ⟨a', db'⟩ := p
      exact WF_acknowledge hwf hok
  | res aid now =>
    show WF (match resolveAlert db aid now with
      | Except.ok p => p.2
      | Except.error _ => db)
    cases hok : resolveAlert db aid now with
    | error e => exact hwf
    | ok p =>
      obtain ⟨a', db'⟩ := p
      exact WF_resolve hwf hok

theorem WF_runOps (cfg : List Config) (ops : List Op) (db : DB)
    (hwf : WF db) : WF (runOps cfg db ops) := by
  induction ops generalizing db with
  | nil => exact hwf
  | cons op ops ih =>
    show WF (runOps cfg (applyOp cfg db op) ops)
    exact ih _ (WF_applyOp cfg db op hwf)

/-- C1: in every store reachable from the empty store by the public
operations — evaluating readings, acknowledging, resolving — every
(server, metric type, label) tuple has at most one alert row with
status OPEN or ACKNOWLEDGED. -/
theorem open_alert_at_most_one (cfg : List Config) (ops : List Op)
    (sid : Nat) (mt : String) (lbl : Option String) :
    openCount sid mt lbl (runOps cfg initDB ops) ≤ 1 :=
  (WF_runOps cfg ops initDB WF_initDB).2.2 sid mt lbl

end RecSignal
